import Mathlib

/-!
Shallow embedding of src/ipc.go, a named-pipe IPC package with a
length-prefixed framing protocol, and proofs about its behaviour.

Modelling conventions:
- a byte is Fin 256; a Go byte slice is a List of bytes; nil slices on
  error paths are modelled with Option (none = nil);
- the byte stream read from the pipe is the List of bytes the peer writes
  before closing its end (EOF after the last byte);
- OS interactions (os.Stat, os.Remove, syscall.Mkfifo, write errors) are
  abstract inputs describing the outcome the OS reports.
-/

namespace Ipc

abbrev Byte := Fin 256

def byteOf (x : Nat) : Byte := ⟨x % 256, Nat.mod_lt x (by norm_num)⟩

abbrev Msg := List Byte

/-- Model of binary.LittleEndian.Uint64 (ipc.go line 52): reads the first 8
bytes, least significant first.  Go panics when the slice is shorter than 8
bytes; every call site in this development branches on that case before
calling (returning StepResult.panicked), so the catch-all branch is never
reached on the panic path. -/
def uint64LE : List Byte → Nat
  | b0 :: b1 :: b2 :: b3 :: b4 :: b5 :: b6 :: b7 :: _ =>
      b0.val + 2 ^ 8 * b1.val + 2 ^ 16 * b2.val + 2 ^ 24 * b3.val +
      2 ^ 32 * b4.val + 2 ^ 40 * b5.val + 2 ^ 48 * b6.val + 2 ^ 56 * b7.val
  | _ => 0

/-- Model of binary.LittleEndian.PutUint64 (ipc.go line 85): emits exactly
8 bytes, least significant first. -/
def putUint64LE (v : Nat) : List Byte :=
  [byteOf v, byteOf (v / 2 ^ 8), byteOf (v / 2 ^ 16), byteOf (v / 2 ^ 24),
   byteOf (v / 2 ^ 32), byteOf (v / 2 ^ 40), byteOf (v / 2 ^ 48), byteOf (v / 2 ^ 56)]

/-- Model of loggedRead (ipc.go lines 97-107) applied to a bufio.Reader over
the remaining stream: io.ReadFull either obtains exactly numBytes bytes and
returns them, or (stream too short before EOF) logs the error and returns nil
(modelled by none) having consumed everything that was available. -/
def loggedRead (input : List Byte) (numBytes : Nat) : Option (List Byte) × List Byte :=
  if numBytes ≤ input.length then (some (input.take numBytes), input.drop numBytes)
  else (none, input.drop numBytes)

/-- Outcome of one iteration of the reader loop body (ipc.go lines 48-57):
either the goroutine panics (Uint64 applied to a nil slice), or it sends one
value on the channel (some data on success, none for the nil sent after a
payload read error) and continues with the remaining stream. -/
inductive StepResult where
  | panicked : StepResult
  | sent : Option Msg → List Byte → StepResult
deriving DecidableEq

/-- One iteration of the for-loop in OpenPipeReader (ipc.go lines 48-57):
read 8 size bytes with loggedRead; on a short read loggedRead returns nil and
binary.LittleEndian.Uint64(nil) panics with an index-out-of-range runtime
error; otherwise interpret the 8 bytes little-endian as readSize, read
readSize payload bytes with loggedRead, and send the result (nil on error)
on the channel. -/
def readerStep (input : List Byte) : StepResult :=
  match loggedRead input 8 with
  | (none, _) => .panicked
  | (some readSizeBytes, rest) =>
      let readSize := uint64LE readSizeBytes
      match loggedRead rest readSize with
      | (none, rest2) => .sent none rest2
      | (some readData, rest2) => .sent (some readData) rest2

/-- Fuel-indexed unfolding of the infinite for-loop of OpenPipeReader over
the finite stream the peer writes before closing the pipe: the list of all
values sent on the channel, paired with true when the goroutine ends in a
panic.  Each iteration consumes at least one byte of the stream, so fuel
equal to the stream length plus one always suffices (readerRunFuel_congr). -/
def readerRunFuel : Nat → List Byte → List (Option Msg) × Bool
  | 0, _ => ([], true)
  | fuel + 1, input =>
      match readerStep input with
      | .panicked => ([], true)
      | .sent m rest =>
          let p := readerRunFuel fuel rest
          (m :: p.1, p.2)

/-- The trace of the reader goroutine of OpenPipeReader on a finite stream
(the bytes the peer writes before closing its end): all values sent on the
channel, in order, and whether the goroutine ends in a panic. -/
def readerRun (input : List Byte) : List (Option Msg) × Bool :=
  readerRunFuel (input.length + 1) input

/-- The bytes one iteration of the writer loop (ipc.go lines 83-90) puts on
the wire for one message taken from the queue: PutUint64 of the length into
an 8-byte buffer, written before the payload, then a flush. -/
def writerFrame (data : Msg) : List Byte :=
  putUint64LE data.length ++ data

/-- The whole byte stream the writer loop (ipc.go lines 83-90) produces when
it drains the queue contents until the channel closes, on the error-free
write path: the frames of the messages in queue order, back to back. -/
def writerRun : List Msg → List Byte
  | [] => []
  | data :: queue => writerFrame data ++ writerRun queue

/-- Outcome the OS reports for os.Stat on a path: success (an entry exists),
the not-exist error, or any other error (for example permission denied on a
parent directory). -/
inductive StatResult where
  | ok : StatResult
  | errNotExist : StatResult
  | errOther : StatResult
deriving DecidableEq

/-- Model of os.IsNotExist applied to the error of os.Stat. -/
def isNotExist : StatResult → Bool
  | .errNotExist => true
  | _ => false

/-- Model of doesFileExist (ipc.go lines 130-134): stat the path and report
existence as the negation of os.IsNotExist of the stat error. -/
def doesFileExist (stat : StatResult) : Bool :=
  !(isNotExist stat)

/-- The error OpenPipeReader and OpenPipeWriter return synchronously when
doesFileExist is false (ipc.go lines 32 and 69). -/
inductive IpcErr where
  | fileDoesNotExist : IpcErr
deriving DecidableEq

/-- What a call to OpenPipeReader (ipc.go lines 30-62) does, as a function of
the stat outcome at pipePath and of the byte stream the peer will write: the
synchronous return value, whether the background goroutine was started, the
values the goroutine sends on the channel pipeChannel it creates locally at
line 35 (capacity 10), the values sent on the caller-supplied pipeData
channel, and whether the goroutine ends in a panic.  The source sends every
decoded value to the local pipeChannel at line 56 and never writes to the
pipeData parameter, so pipeDataSends is the empty list on every path. -/
structure ReaderStart where
  err : Option IpcErr
  started : Bool
  internalSends : List (Option Msg)
  pipeDataSends : List (Option Msg)
  panicked : Bool
deriving DecidableEq

def OpenPipeReader (stat : StatResult) (stream : List Byte) : ReaderStart :=
  if !doesFileExist stat then
    { err := some .fileDoesNotExist, started := false,
      internalSends := [], pipeDataSends := [], panicked := false }
  else
    { err := none, started := true,
      internalSends := (readerRun stream).1,
      pipeDataSends := [],
      panicked := (readerRun stream).2 }

/-- What a call to OpenPipeWriter (ipc.go lines 67-95) does, as a function of
the stat outcome at pipePath and of the queue contents the caller sends
before closing the channel: the synchronous return value, whether the
background goroutine was started, and the bytes written to the pipe on the
error-free write path. -/
structure WriterStart where
  err : Option IpcErr
  started : Bool
  written : List Byte
deriving DecidableEq

def OpenPipeWriter (stat : StatResult) (queue : List Msg) : WriterStart :=
  if !doesFileExist stat then
    { err := some .fileDoesNotExist, started := false, written := [] }
  else
    { err := none, started := true, written := writerRun queue }

/-- Outcomes the OS reports to CreatePipe: the os.Stat outcome at the path,
whether os.Remove fails, and whether syscall.Mkfifo fails. -/
structure FsEnv where
  stat : StatResult
  removeFails : Bool
  mkfifoFails : Bool
deriving DecidableEq

inductive CreateErr where
  | removeFailed : CreateErr
  | mkfifoFailed : CreateErr
deriving DecidableEq

/-- What a call to CreatePipe does: how many times it calls os.Remove and
syscall.Mkfifo, and what it returns. -/
structure CreateTrace where
  removeCalls : Nat
  mkfifoCalls : Nat
  result : Option CreateErr
deriving DecidableEq

/-- Model of CreatePipe (ipc.go lines 16-25): if doesFileExist, call
os.Remove once and return its error without creating anything when it fails;
otherwise (and when no entry was seen) call syscall.Mkfifo once and return
its error. -/
def CreatePipe (env : FsEnv) : CreateTrace :=
  if doesFileExist env.stat then
    if env.removeFails then
      { removeCalls := 1, mkfifoCalls := 0, result := some .removeFailed }
    else
      { removeCalls := 1, mkfifoCalls := 1,
        result := if env.mkfifoFails then some .mkfifoFailed else none }
  else
    { removeCalls := 0, mkfifoCalls := 1,
      result := if env.mkfifoFails then some .mkfifoFailed else none }

/-- How a call to loggedWrite (ipc.go lines 109-116) ends: a normal return to
the writer loop, or process termination via os.Exit with the given code. -/
inductive WriteOutcome where
  | returned : WriteOutcome
  | exited : Nat → WriteOutcome
deriving DecidableEq

structure LoggedWriteResult where
  outcome : WriteOutcome
  logged : Bool
deriving DecidableEq

/-- Model of loggedWrite (ipc.go lines 109-116) as a function of the outcome
the OS reports for the underlying write: on a write error the source calls
os.Exit(1) on line 113 before the glog.Error call on line 114, so the
process exits with code 1 and the log statement never runs; on success it
returns without logging. -/
def loggedWrite (writeErr : Bool) : LoggedWriteResult :=
  if writeErr then { outcome := .exited 1, logged := false }
  else { outcome := .returned, logged := false }

theorem putUint64LE_length (v : Nat) : (putUint64LE v).length = 8 := rfl

theorem uint64LE_putUint64LE (v : Nat) (h : v < 2 ^ 64) :
    uint64LE (putUint64LE v) = v := by
  simp only [putUint64LE, uint64LE, byteOf]
  omega

theorem readerStep_rest_lt {input rest : List Byte} {m : Option Msg}
    (h : readerStep input = .sent m rest) : rest.length < input.length := by
  unfold readerStep loggedRead at h
  by_cases h8 : 8 ≤ input.length
  · simp only [if_pos h8] at h
    by_cases hp : uint64LE (input.take 8) ≤ (input.drop 8).length
    · simp only [if_pos hp] at h
      cases h
      simp only [List.length_drop]
      omega
    · simp only [if_neg hp] at h
      cases h
      simp only [List.length_drop]
      omega
  · simp only [if_neg h8] at h
    cases h

theorem readerRunFuel_congr :
    ∀ f g input, input.length < f → input.length < g →
      readerRunFuel f input = readerRunFuel g input := by
  intro f
  induction f with
  | zero => intro g input hf hg; omega
  | succ f ih =>
      intro g input hf hg
      match g, hg with
      | g + 1, hg =>
        show readerRunFuel (f + 1) input = readerRunFuel (g + 1) input
        simp only [readerRunFuel]
        cases hstep : readerStep input with
        | panicked => rfl
        | sent m rest =>
            have hlt := readerStep_rest_lt hstep
            dsimp only
            rw [ih g rest (by omega) (by omega)]

theorem readerRun_step (input : List Byte) :
    readerRun input =
      match readerStep input with
      | .panicked => ([], true)
      | .sent m rest => ((m :: (readerRun rest).1, (readerRun rest).2) :
          List (Option Msg) × Bool) := by
  show readerRunFuel (input.length + 1) input = _
  simp only [readerRunFuel]
  cases hstep : readerStep input with
  | panicked => rfl
  | sent m rest =>
      have hlt := readerStep_rest_lt hstep
      dsimp only
      rw [readerRunFuel_congr input.length (rest.length + 1) rest (by omega) (by omega)]
      rfl

theorem readerStep_frame (payload : Msg) (rest : List Byte)
    (h : payload.length < 2 ^ 64) :
    readerStep (writerFrame payload ++ rest) = .sent (some payload) rest := by
  unfold readerStep loggedRead writerFrame
  rw [List.append_assoc]
  have htake : (putUint64LE payload.length ++ (payload ++ rest)).take 8 =
      putUint64LE payload.length := by
    rw [show (8 : Nat) = (putUint64LE payload.length).length from rfl]
    exact List.take_left _ _
  have hdrop : (putUint64LE payload.length ++ (payload ++ rest)).drop 8 =
      payload ++ rest := by
    rw [show (8 : Nat) = (putUint64LE payload.length).length from rfl]
    exact List.drop_left _ _
  have h8 : 8 ≤ (putUint64LE payload.length ++ (payload ++ rest)).length := by
    simp [putUint64LE]
  rw [if_pos h8, htake, hdrop]
  dsimp only
  rw [uint64LE_putUint64LE payload.length h]
  have hple : payload.length ≤ (payload ++ rest).length := by
    simp
  rw [if_pos hple]
  rw [show (payload ++ rest).take payload.length = payload from List.take_left _ _,
      show (payload ++ rest).drop payload.length = rest from List.drop_left _ _]

/-- C1: the claim says a successfully decoded Frame is delivered on the
caller-supplied outputQueue (pipeData), so with payload 0x01 0x02 0x03 the
caller draining pipeData receives that Message.  In the source the goroutine
sends every decoded payload on the channel pipeChannel created locally at
line 35 and never writes to the pipeData parameter: on this very input the
decoded Message 0x01 0x02 0x03 ends up on the internal channel and
pipeData receives nothing. -/
theorem c1_decoded_payload_misses_pipeData :
    (OpenPipeReader .ok (writerFrame [byteOf 1, byteOf 2, byteOf 3])).internalSends =
      [some [byteOf 1, byteOf 2, byteOf 3]] ∧
    (OpenPipeReader .ok (writerFrame [byteOf 1, byteOf 2, byteOf 3])).pipeDataSends =
      [] := by
  decide

/-- C2: encoding a payload as a Frame (8-byte little-endian length then the
payload) and decoding that Frame yields back exactly the original bytes,
for every payload length below 2 to the 64. -/
theorem c2_frame_roundtrip (payload : Msg) (rest : List Byte)
    (h : payload.length < 2 ^ 64) :
    readerStep (writerFrame payload ++ rest) = .sent (some payload) rest :=
  readerStep_frame payload rest h

/-- C2 witness: the empty payload round-trips to a Message of length 0, not
a decode error. -/
theorem c2_frame_roundtrip_witness :
    (([] : Msg).length < 2 ^ 64) ∧
    readerStep (writerFrame [] ++ []) = .sent (some []) [] :=
  ⟨by decide, c2_frame_roundtrip [] [] (by decide)⟩

/-- C3: every Message the reader loop decodes successfully has exactly the
length declared by the 8-byte size field, and a stream that declares length
L but ends before L payload bytes are available produces the nil marker
(never a successful Message). -/
theorem c3_length_fidelity :
    (∀ input m rest, readerStep input = .sent (some m) rest →
        m.length = uint64LE (input.take 8)) ∧
    (∀ input, 8 ≤ input.length →
        input.length < 8 + uint64LE (input.take 8) →
        readerStep input = .sent none []) := by
  constructor
  · intro input m rest h
    unfold readerStep loggedRead at h
    by_cases h8 : 8 ≤ input.length
    · simp only [if_pos h8] at h
      by_cases hp : uint64LE (input.take 8) ≤ (input.drop 8).length
      · simp only [if_pos hp] at h
        cases h
        simp only [List.length_take]
        omega
      · simp only [if_neg hp] at h
        cases h
    · simp only [if_neg h8] at h
      cases h
  · intro input h8 hshort
    unfold readerStep loggedRead
    rw [if_pos h8]
    dsimp only
    have hp : ¬ uint64LE (input.take 8) ≤ (input.drop 8).length := by
      simp only [List.length_drop]
      omega
    rw [if_neg hp]
    have hnil : (input.drop 8).drop (uint64LE (input.take 8)) = [] := by
      apply List.drop_eq_nil_of_le
      simp only [List.length_drop]
      omega
    rw [hnil]

/-- C3 witness: a successfully decoded one-byte Message has the declared
length 1, and the stream declaring length 5 followed by only 2 bytes before
EOF yields the nil marker, not a Message of length 5. -/
theorem c3_length_fidelity_witness :
    (readerStep (writerFrame [byteOf 7]) = .sent (some [byteOf 7]) [] ∧
      ([byteOf 7] : Msg).length = uint64LE ((writerFrame [byteOf 7]).take 8)) ∧
    (8 ≤ (putUint64LE 5 ++ [byteOf 1, byteOf 2]).length ∧
      (putUint64LE 5 ++ [byteOf 1, byteOf 2]).length <
        8 + uint64LE ((putUint64LE 5 ++ [byteOf 1, byteOf 2]).take 8) ∧
      readerStep (putUint64LE 5 ++ [byteOf 1, byteOf 2]) = .sent none []) :=
  ⟨⟨by decide, c3_length_fidelity.1 (writerFrame [byteOf 7]) [byteOf 7] [] (by decide)⟩,
   ⟨by decide, by decide,
    c3_length_fidelity.2 (putUint64LE 5 ++ [byteOf 1, byteOf 2]) (by decide) (by decide)⟩⟩

/-- C4: the claim says that on every decode error the loop logs, delivers a
nil/empty Message and keeps iterating, never stopping or crashing.  In the
source a short read of the 8-byte size field (for example the peer closing
the pipe after writing a single byte 0x03) makes loggedRead return nil, and
binary.LittleEndian.Uint64(nil) then panics, crashing the whole process:
the run over that stream delivers nothing and ends in a panic. -/
theorem c4_reader_crashes_on_short_size_read :
    readerStep [byteOf 3] = .panicked ∧
    readerRun [byteOf 3] = ([], true) := by
  decide

/-- C5: decoding the concatenation of the encodings of the queued messages
M1..MN yields exactly M1..MN in order: the values sent on the reader channel
are the queued messages, each wrapped in some, with no drop, duplicate,
reordering or coalescing. -/
theorem c5_fifo_ordering (queue : List Msg)
    (h : ∀ m ∈ queue, m.length < 2 ^ 64) :
    (readerRun (writerRun queue)).1 = queue.map some := by
  induction queue with
  | nil => rfl
  | cons d q ih =>
      rw [writerRun, readerRun_step, readerStep_frame d (writerRun q) (h d (by simp))]
      dsimp only
      rw [ih (fun m hm => h m (by simp [hm]))]
      rfl

/-- C5 witness: three messages of lengths 1, 2 and 0 framed back to back are
delivered as exactly those three messages in order. -/
theorem c5_fifo_ordering_witness :
    (∀ m ∈ ([[byteOf 1], [byteOf 2, byteOf 3], []] : List Msg), m.length < 2 ^ 64) ∧
    (readerRun (writerRun [[byteOf 1], [byteOf 2, byteOf 3], []])).1 =
      ([[byteOf 1], [byteOf 2, byteOf 3], []] : List Msg).map some :=
  ⟨by decide, c5_fifo_ordering [[byteOf 1], [byteOf 2, byteOf 3], []] (by decide)⟩

/-- C6: when os.Stat reports that nothing exists at the path, OpenPipeReader
and OpenPipeWriter return the not-found error synchronously and start no
background goroutine (nothing is ever sent or written); for every other stat
outcome they return success immediately and start the goroutine. -/
theorem c6_notfound_guard (stat : StatResult) (stream : List Byte) (queue : List Msg) :
    ((OpenPipeReader stat stream).err =
      if stat = .errNotExist then some .fileDoesNotExist else none) ∧
    ((OpenPipeReader stat stream).started = if stat = .errNotExist then false else true) ∧
    (OpenPipeReader .errNotExist stream).internalSends = [] ∧
    (OpenPipeReader .errNotExist stream).pipeDataSends = [] ∧
    ((OpenPipeWriter stat queue).err =
      if stat = .errNotExist then some .fileDoesNotExist else none) ∧
    ((OpenPipeWriter stat queue).started = if stat = .errNotExist then false else true) ∧
    (OpenPipeWriter .errNotExist queue).written = [] := by
  cases stat <;>
    simp [OpenPipeReader, OpenPipeWriter, doesFileExist, isNotExist]

/-- C7: when os.Stat sees an entry at the path, CreatePipe calls os.Remove
exactly once first; if removal fails it returns the removal error without
calling Mkfifo and without retrying; if removal succeeds, or no entry was
seen, it calls Mkfifo exactly once and returns its error when creation
fails. -/
theorem c7_createPipe_remove_then_create (removeFails mkfifoFails : Bool) :
    (CreatePipe ⟨.ok, true, mkfifoFails⟩ =
      { removeCalls := 1, mkfifoCalls := 0, result := some .removeFailed }) ∧
    (CreatePipe ⟨.ok, false, mkfifoFails⟩ =
      { removeCalls := 1, mkfifoCalls := 1,
        result := if mkfifoFails then some .mkfifoFailed else none }) ∧
    (CreatePipe ⟨.errNotExist, removeFails, mkfifoFails⟩ =
      { removeCalls := 0, mkfifoCalls := 1,
        result := if mkfifoFails then some .mkfifoFailed else none }) := by
  cases removeFails <;> cases mkfifoFails <;> decide

/-- C8: on every failed write of a Frame part, loggedWrite terminates the
whole process with exit code 1, and the log statement never runs because
os.Exit precedes it; on a successful write it returns normally. -/
theorem c8_write_error_is_fatal :
    loggedWrite true = { outcome := .exited 1, logged := false } ∧
    loggedWrite false = { outcome := .returned, logged := false } := by
  decide

/-- C9: the encoder emits exactly 8 bytes holding the payload length as an
unsigned little-endian integer followed by the payload, and the decoder
reads exactly 8 bytes, interprets them little-endian, then reads exactly
that many payload bytes, consuming precisely one frame. -/
theorem c9_wire_format (data : Msg) (rest : List Byte) (h : data.length < 2 ^ 64) :
    (writerFrame data).length = 8 + data.length ∧
    (writerFrame data).take 8 = putUint64LE data.length ∧
    (writerFrame data).drop 8 = data ∧
    uint64LE (putUint64LE data.length) = data.length ∧
    readerStep (writerFrame data ++ rest) = .sent (some data) rest := by
  refine ⟨?_, ?_, ?_, uint64LE_putUint64LE data.length h, readerStep_frame data rest h⟩
  · simp [writerFrame, putUint64LE]
    omega
  · rw [writerFrame, show (8 : Nat) = (putUint64LE data.length).length from rfl]
    exact List.take_left _ _
  · rw [writerFrame, show (8 : Nat) = (putUint64LE data.length).length from rfl]
    exact List.drop_left _ _

/-- C9 witness: the frame of the one-byte payload 0x07 followed by a
trailing byte decodes by consuming exactly the 9 frame bytes. -/
theorem c9_wire_format_witness :
    (([byteOf 7] : Msg).length < 2 ^ 64) ∧
    ((writerFrame [byteOf 7]).length = 8 + ([byteOf 7] : Msg).length ∧
      (writerFrame [byteOf 7]).take 8 = putUint64LE ([byteOf 7] : Msg).length ∧
      (writerFrame [byteOf 7]).drop 8 = [byteOf 7] ∧
      uint64LE (putUint64LE ([byteOf 7] : Msg).length) = ([byteOf 7] : Msg).length ∧
      readerStep (writerFrame [byteOf 7] ++ [byteOf 9]) =
        .sent (some [byteOf 7]) [byteOf 9]) :=
  ⟨by decide, c9_wire_format [byteOf 7] [byteOf 9] (by decide)⟩

/-- C10: when os.Stat fails with an error other than non-existence,
doesFileExist reports the path as existing, so OpenPipeReader and
OpenPipeWriter return success and start their goroutine, and CreatePipe
calls os.Remove. -/
theorem c10_stat_error_counts_as_existing (stream : List Byte) (queue : List Msg)
    (removeFails mkfifoFails : Bool) :
    doesFileExist .errOther = true ∧
    (OpenPipeReader .errOther stream).err = none ∧
    (OpenPipeReader .errOther stream).started = true ∧
    (OpenPipeWriter .errOther queue).err = none ∧
    (OpenPipeWriter .errOther queue).started = true ∧
    (CreatePipe ⟨.errOther, removeFails, mkfifoFails⟩).removeCalls = 1 := by
  cases removeFails <;> cases mkfifoFails <;>
    simp [OpenPipeReader, OpenPipeWriter, CreatePipe, doesFileExist, isNotExist]

end Ipc
